import Mathlib

/-!
# Fleep message step: a shallow embedding of `main.go`

The program reads seven environment variables into a `ConfigsModel`, validates
it, builds a JSON payload, posts it to the webhook and maps the response to a
process exit code.

Conventions of the embedding:

* a Go `string` is a Lean `String` (the environment is taken to hold
  well-formed UTF-8 text);
* a Go `error` is an `Option String`: `none` is `nil`, `some msg` is
  `errors.New(msg)`;
* a Go `*string` is an `Option String`: `none` is the nil pointer;
* the process environment and the HTTP transport are explicit parameters;
* `os.Exit(n)` is the returned exit code `n`;
* the `fmt.Println` / `fmt.Printf` diagnostics do not influence any returned
  value or branch and are left out.
-/

namespace FleepMessage

/-! ## Data model -/

/-- The configuration record (`type ConfigsModel struct`). -/
structure ConfigsModel where
  WebhookURL : String
  FromUsername : String
  FromUsernameOnError : String
  Message : String
  MessageOnError : String
  IsDebugMode : Bool
  IsBuildFailed : Bool
  deriving DecidableEq, Repr

/-- The process environment: a variable is either unset or bound to a value. -/
abbrev Env := String → Option String

/-- Go's `os.Getenv`: the value of the variable, or the empty string when the
variable is not present. -/
def osGetenv (env : Env) (key : String) : String :=
  match env key with
  | some v => v
  | none => ""

/-- The configuration loader (`func createConfigsModelFromEnvs`). -/
def createConfigsModelFromEnvs (env : Env) : ConfigsModel :=
  { WebhookURL := osGetenv env "webhook_url"
    FromUsername := osGetenv env "from_username"
    FromUsernameOnError := osGetenv env "from_username_on_error"
    Message := osGetenv env "message"
    MessageOnError := osGetenv env "message_on_error"
    IsDebugMode := decide (osGetenv env "is_debug_mode" = "yes")
    IsBuildFailed := decide (osGetenv env "STEPLIB_BUILD_STATUS" ≠ "0") }

/-- The validator (`func (configs ConfigsModel) validate() error`). -/
def validate (configs : ConfigsModel) : Option String :=
  if configs.WebhookURL = "" then
    some "No Webhook URL parameter specified"
  else if configs.Message = "" then
    some "No Message parameter specified"
  else
    none

/-! ## Go library functions used by the payload builder -/

/-- The scanning loop of Go's `strings.Replace` for a non-empty `old` and no
limit on the number of replacements: the text is read left to right, every
occurrence of `old` found at the current position is replaced by `new` and the
scan resumes right after it (so occurrences never overlap). The counter is the
number of characters of a matched occurrence still to be skipped. -/
def replaceFrom (old new : List Char) : Nat → List Char → List Char
  | _, [] => []
  | k + 1, _ :: t => replaceFrom old new k t
  | 0, c :: t =>
    if old.isPrefixOf (c :: t) then new ++ replaceFrom old new (old.length - 1) t
    else c :: replaceFrom old new 0 t

/-- Go's `strings.Replace(s, old, new, -1)`: `s` itself when `old == new`, `new`
inserted before every character and at the end when `old` is empty, and
otherwise every non-overlapping occurrence of `old` replaced by `new`. -/
def stringsReplaceAll (s old new : String) : String :=
  if old = new then s
  else if old = "" then String.mk (new.data ++ s.data.flatMap (fun c => c :: new.data))
  else String.mk (replaceFrom old.data new.data 0 s.data)

/-- The sixteen digits used by `encoding/json` for `\u00XX` escapes. -/
def hexDigit (n : Nat) : Char :=
  "0123456789abcdef".data.getD n '0'

/-- The table `htmlSafeSet` of `encoding/json`: the ASCII characters that are
written to a JSON string as they are when HTML escaping is on (the setting
`json.Marshal` uses). -/
def htmlSafe (c : Char) : Bool :=
  decide (0x20 ≤ c.toNat) && decide (c.toNat < 0x80) &&
    !(c == '"' || c == '&' || c == '<' || c == '>' || c == '\\')

/-- The encoding of one character inside a JSON string literal, as done by
`encoding/json` (`appendString` with HTML escaping): safe ASCII is copied,
the quote and the backslash get a backslash, the usual control characters get
their short escape, every other ASCII character becomes `\u00XX`, the line and
paragraph separators U+2028 and U+2029 get their six-character escape, and
every other character is copied. The short escapes for backspace and form feed
are those of Go 1.22 and later; earlier releases write them as `\u0008` and
`\u000c`, which denotes the same JSON string. -/
def jsonEscapeChar (c : Char) : List Char :=
  if c.toNat < 0x80 then
    if htmlSafe c then [c]
    else if c = '\\' ∨ c = '"' then ['\\', c]
    else if c = '\x08' then ['\\', 'b']
    else if c = '\x0c' then ['\\', 'f']
    else if c = '\n' then ['\\', 'n']
    else if c = '\r' then ['\\', 'r']
    else if c = '\t' then ['\\', 't']
    else ['\\', 'u', '0', '0', hexDigit (c.toNat / 16), hexDigit (c.toNat % 16)]
  else if c = Char.ofNat 0x2028 ∨ c = Char.ofNat 0x2029 then
    ['\\', 'u', '2', '0', '2', hexDigit (c.toNat % 16)]
  else [c]

/-- A JSON string literal for a Go string: the escaped characters between
double quotes. -/
def jsonString (s : String) : String :=
  String.mk ('"' :: (s.data.flatMap jsonEscapeChar ++ ['"']))

/-- The JSON values a `RequestParams` can marshal to. -/
inductive JsonValue where
  | null
  | str (s : String)
  deriving DecidableEq, Repr

/-- A JSON object: its members in the order they are written. -/
abbrev JsonObject := List (String × JsonValue)

/-- The Go values held by the fields of `RequestParams`. -/
inductive GoValue where
  | string (s : String)
  | stringPtr (p : Option String)
  deriving DecidableEq, Repr

/-- A `json:"..."` struct tag: the member name and whether `,omitempty` is
given. -/
structure JsonTag where
  name : String
  omitEmpty : Bool
  deriving DecidableEq, Repr

/-- The rule `isEmptyValue` of `encoding/json`: an empty string and a nil
pointer are empty. -/
def isEmptyValue : GoValue → Bool
  | .string s => decide (s = "")
  | .stringPtr p => p.isNone

/-- The JSON value of a Go value: a string is a JSON string, a nil pointer is
`null`, a non-nil pointer is the value it points to. -/
def jsonValueOf : GoValue → JsonValue
  | .string s => .str s
  | .stringPtr none => .null
  | .stringPtr (some s) => .str s

/-- The members `encoding/json` writes for a struct: every field in declaration
order under its tag name, a field being left out only when its tag says
`omitempty` and its value is empty. -/
def jsonObjectOf (fields : List (JsonTag × GoValue)) : JsonObject :=
  (fields.filter (fun f => !(f.1.omitEmpty && isEmptyValue f.2))).map
    (fun f => (f.1.name, jsonValueOf f.2))

/-- The text of a JSON value. -/
def renderJsonValue : JsonValue → String
  | .null => "null"
  | .str s => jsonString s

/-- The text of a JSON object, in the compact form `json.Marshal` writes. -/
def renderJsonObject (o : JsonObject) : String :=
  "\x7b" ++ ",".intercalate (o.map (fun m => jsonString m.1 ++ ":" ++ renderJsonValue m.2))
    ++ "\x7d"

/-! ## Payload builder -/

/-- The wire payload (`type RequestParams struct`). -/
structure RequestParams where
  Text : String
  Username : Option String
  deriving DecidableEq, Repr

/-- The fields of `RequestParams` with their struct tags: `json:"message"` and
`json:"user"`, neither with `omitempty`. -/
def RequestParams.jsonFields (p : RequestParams) : List (JsonTag × GoValue) :=
  [(⟨"message", false⟩, .string p.Text), (⟨"user", false⟩, .stringPtr p.Username)]

/-- The JSON object `json.Marshal` builds for a `RequestParams`. -/
def RequestParams.toJson (p : RequestParams) : JsonObject :=
  jsonObjectOf p.jsonFields

/-- Go's `json.Marshal` on a `RequestParams`: the text of the object and a nil
error (a struct of strings always marshals). -/
def jsonMarshal (p : RequestParams) : String × Option String :=
  (renderJsonObject p.toJson, none)

/-- The message normalisation (`func ensureNewlineEscapeChar`). -/
def ensureNewlineEscapeChar (s : String) : String :=
  stringsReplaceAll s ("\\" ++ "n") "\n"

/-- The value of the local `reqParams` of `CreatePayloadParam` when it is handed
to `json.Marshal`. -/
def CreatePayloadParam.reqParams (configs : ConfigsModel) : RequestParams :=
  -- - required
  let msgText := configs.Message
  let msgText :=
    if configs.IsBuildFailed then
      if configs.MessageOnError = "" then msgText else configs.MessageOnError
    else msgText
  let msgText := ensureNewlineEscapeChar msgText
  let reqParams : RequestParams := { Text := msgText, Username := none }
  -- - optional
  let reqUsername := configs.FromUsername
  let reqParams :=
    if reqUsername ≠ "" then { reqParams with Username := some reqUsername } else reqParams
  let reqParams :=
    if configs.IsBuildFailed then
      if configs.FromUsernameOnError = "" then reqParams
      else { reqParams with Username := some configs.FromUsernameOnError }
    else reqParams
  reqParams

/-- The payload builder (`func CreatePayloadParam`): the JSON text and the
error, which is nil on every path. -/
def CreatePayloadParam (configs : ConfigsModel) : String × Option String :=
  match jsonMarshal (CreatePayloadParam.reqParams configs) with
  | (_, some _) => ("", none)
  | (reqParamsJSONBytes, none) => (reqParamsJSONBytes, none)

/-! ## Webhook client and entry point -/

/-- What the program reads from an HTTP response: the status code and the body
as returned by `ioutil.ReadAll`. -/
structure Response where
  StatusCode : Int
  Body : String
  deriving DecidableEq, Repr

/-- The transport (`http.Post`): from the URL, the content type and the body to
either a transport error or a response. -/
abbrev HttpPost := String → String → String → Except String Response

/-- The entry point (`func main`): the process exit code. -/
def main (env : Env) (httpPost : HttpPost) : Nat :=
  let configs := createConfigsModelFromEnvs env
  match validate configs with
  | some _ => 1
  | none =>
    let requestURL := configs.WebhookURL
    match CreatePayloadParam configs with
    | (_, some _) => 1
    | (reqParamsJSONString, none) =>
      match httpPost requestURL "application/json" reqParamsJSONString with
      | .error _ => 1
      | .ok resp =>
        if resp.StatusCode ≠ 200 ∨ resp.Body ≠ "ok" then 1 else 0

/-! ## Vocabulary of the specification

These definitions are not part of the program. They give a precise meaning to
words the specification uses, so that its sentences can be stated next to what
the code computes. -/

/-- Go's `unicode.IsSpace`: the white space characters. -/
def unicodeIsSpace (c : Char) : Bool :=
  let n := c.toNat
  decide ((0x09 ≤ n ∧ n ≤ 0x0d) ∨ n = 0x20 ∨ n = 0x85 ∨ n = 0xa0 ∨ n = 0x1680 ∨
    (0x2000 ≤ n ∧ n ≤ 0x200a) ∨ n = 0x2028 ∨ n = 0x2029 ∨ n = 0x202f ∨ n = 0x205f ∨
    n = 0x3000)

/-- The specification's "trimmed response body": the body without its leading
and trailing white space (Go's `strings.TrimSpace`). The program never calls
it. -/
def specTrimmedBody (body : String) : String :=
  String.mk ((body.data.dropWhile unicodeIsSpace).reverse.dropWhile unicodeIsSpace).reverse

/-- The two-character sequence backslash, `n` occurs somewhere in the text. -/
def hasBackslashN (s : String) : Prop :=
  ['\\', 'n'] <:+: s.data

instance (s : String) : Decidable (hasBackslashN s) :=
  inferInstanceAs (Decidable (['\\', 'n'] <:+: s.data))

/-- An environment in which none of the variables is set. -/
def emptyEnv : Env := fun _ => none

/-- An environment of a successful build with the two required inputs set. -/
def sampleEnv : Env := fun key =>
  if key = "webhook_url" then some "https://fleep.io/hook/abc"
  else if key = "message" then some "build done"
  else if key = "STEPLIB_BUILD_STATUS" then some "0"
  else none

/-! ## Theorems -/

/-- C1: whenever `webhook_url` is empty, `validate` fails with the
missing-webhook-URL error, whatever `message` (and every other field) is; in
particular when `message` is empty too, the webhook error is the one reported. -/
theorem validate_empty_webhook_url (configs : ConfigsModel)
    (h : configs.WebhookURL = "") :
    validate configs = some "No Webhook URL parameter specified" := by
  simp [validate, h]

/-- Witness for C1: both required fields empty; the webhook error wins. -/
theorem validate_empty_webhook_url_witness :
    validate ⟨"", "bot", "", "", "", false, true⟩
      = some "No Webhook URL parameter specified" :=
  validate_empty_webhook_url ⟨"", "bot", "", "", "", false, true⟩ rfl

/-- C2: whenever `webhook_url` is non-empty and `message` is empty, `validate`
fails with the missing-message error, whatever the other fields are. -/
theorem validate_empty_message (configs : ConfigsModel)
    (hurl : configs.WebhookURL ≠ "") (hmsg : configs.Message = "") :
    validate configs = some "No Message parameter specified" := by
  simp [validate, hurl, hmsg]

/-- Witness for C2: a URL is given and the message is empty. -/
theorem validate_empty_message_witness :
    validate ⟨"https://fleep.io/hook/x", "bot", "err", "", "oops", true, true⟩
      = some "No Message parameter specified" :=
  validate_empty_message ⟨"https://fleep.io/hook/x", "bot", "err", "", "oops", true, true⟩
    (by decide) rfl

/-! ### Response interpretation -/

/-- C3 as stated fails: a response with status 200 whose body is `ok` followed
by a newline has the trimmed body `ok`, yet the run exits with code 1. -/
theorem main_rejects_ok_newline :
    specTrimmedBody "ok\n" = "ok" ∧
      main sampleEnv (fun _ _ _ => .ok ⟨200, "ok\n"⟩) = 1 := by
  decide

/-- C3, amended: when the configuration is valid and the transport returns a
response, the exit code is 0 exactly when the status code is 200 and the body
is the string `ok` itself (nothing is trimmed), and 1 for every other
response. -/
theorem main_exit_code_of_response (env : Env) (httpPost : HttpPost) (resp : Response)
    (hvalid : validate (createConfigsModelFromEnvs env) = none)
    (hpost : httpPost (createConfigsModelFromEnvs env).WebhookURL "application/json"
      (CreatePayloadParam (createConfigsModelFromEnvs env)).1 = .ok resp) :
    (main env httpPost = 0 ↔ resp.StatusCode = 200 ∧ resp.Body = "ok") ∧
      (main env httpPost = 0 ∨ main env httpPost = 1) := by
  have hmain : main env httpPost
      = if resp.StatusCode ≠ 200 ∨ resp.Body ≠ "ok" then 1 else 0 := by
    simp only [CreatePayloadParam, jsonMarshal] at hpost
    simp only [main, hvalid, CreatePayloadParam, jsonMarshal, hpost]
  rw [hmain]
  by_cases h : resp.StatusCode ≠ 200 ∨ resp.Body ≠ "ok"
  · rw [if_pos h]
    refine ⟨⟨fun h0 => absurd h0 (by decide), fun hok => ?_⟩, Or.inr rfl⟩
    rcases h with h | h
    · exact absurd hok.1 h
    · exact absurd hok.2 h
  · rw [if_neg h]
    refine ⟨⟨fun _ => ?_, fun _ => rfl⟩, Or.inl rfl⟩
    constructor
    · by_contra hs
      exact h (Or.inl hs)
    · by_contra hb
      exact h (Or.inr hb)

/-- Witness for C3: the sample environment with a transport answering 200 and
`ok` exits with code 0. -/
theorem main_exit_code_of_response_witness :
    main sampleEnv (fun _ _ _ => .ok ⟨200, "ok"⟩) = 0 :=
  ((main_exit_code_of_response sampleEnv (fun _ _ _ => .ok ⟨200, "ok"⟩) ⟨200, "ok"⟩
    (by decide) rfl).1).2 ⟨rfl, rfl⟩

/-! ### Username selection -/

/-- The username of the payload, by cases on the configuration. -/
theorem reqParams_Username (configs : ConfigsModel) :
    (CreatePayloadParam.reqParams configs).Username =
      if configs.IsBuildFailed = true ∧ configs.FromUsernameOnError ≠ "" then
        some configs.FromUsernameOnError
      else if configs.FromUsername ≠ "" then some configs.FromUsername
      else none := by
  unfold CreatePayloadParam.reqParams
  by_cases hf : configs.IsBuildFailed = true <;>
    by_cases he : configs.FromUsernameOnError = "" <;>
    by_cases hu : configs.FromUsername = "" <;>
    simp [hf, he, hu]

/-- The message of the payload, by cases on the configuration. -/
theorem reqParams_Text (configs : ConfigsModel) :
    (CreatePayloadParam.reqParams configs).Text =
      ensureNewlineEscapeChar
        (if configs.IsBuildFailed = true ∧ configs.MessageOnError ≠ "" then
          configs.MessageOnError
        else configs.Message) := by
  unfold CreatePayloadParam.reqParams
  by_cases hf : configs.IsBuildFailed = true <;>
    by_cases he : configs.FromUsernameOnError = "" <;>
    by_cases hu : configs.FromUsername = "" <;>
    by_cases hm : configs.MessageOnError = "" <;>
    simp [hf, he, hu, hm]

/-- The payload builder returns the marshalled `reqParams` and a nil error. -/
theorem CreatePayloadParam_eq (configs : ConfigsModel) :
    CreatePayloadParam configs
      = (renderJsonObject (CreatePayloadParam.reqParams configs).toJson, none) := by
  simp [CreatePayloadParam, jsonMarshal]

/-- C5 as stated fails: on a successful build with an empty `from_username`, a
non-empty `from_username_on_error` does not give the payload a username. -/
theorem username_absent_on_success_despite_error_name :
    (⟨"https://fleep.io/hook/abc", "", "alarm", "hi", "", false, false⟩ :
        ConfigsModel).FromUsernameOnError ≠ "" ∧
      (CreatePayloadParam.reqParams
        ⟨"https://fleep.io/hook/abc", "", "alarm", "hi", "", false, false⟩).Username = none := by
  decide

/-- C5, amended: the payload has a username exactly when `from_username` is
non-empty, or the build failed and `from_username_on_error` is non-empty; and
when the build failed and `from_username_on_error` is non-empty the username is
`from_username_on_error`. -/
theorem username_present_iff (configs : ConfigsModel) :
    ((CreatePayloadParam.reqParams configs).Username.isSome = true ↔
        configs.FromUsername ≠ "" ∨
          (configs.IsBuildFailed = true ∧ configs.FromUsernameOnError ≠ "")) ∧
      (configs.IsBuildFailed = true → configs.FromUsernameOnError ≠ "" →
        (CreatePayloadParam.reqParams configs).Username
          = some configs.FromUsernameOnError) := by
  rw [reqParams_Username]
  by_cases hf : configs.IsBuildFailed = true <;>
    by_cases he : configs.FromUsernameOnError = "" <;>
    by_cases hu : configs.FromUsername = "" <;>
    simp [hf, he, hu]

/-- Witness for C5: a failed build with both names set uses the error name. -/
theorem username_present_iff_witness :
    (CreatePayloadParam.reqParams
      ⟨"https://fleep.io/hook/abc", "bot", "alarm", "hi", "", false, true⟩).Username
        = some "alarm" :=
  (username_present_iff
    ⟨"https://fleep.io/hook/abc", "bot", "alarm", "hi", "", false, true⟩).2 rfl (by decide)

/-- C6: on a failed build the payload username is `from_username_on_error` when
that is non-empty, whatever `from_username` is; otherwise it is what the normal
branch resolved: `from_username` when non-empty, absent when empty. -/
theorem username_on_failed_build (configs : ConfigsModel)
    (hfailed : configs.IsBuildFailed = true) :
    (CreatePayloadParam.reqParams configs).Username =
      if configs.FromUsernameOnError ≠ "" then some configs.FromUsernameOnError
      else if configs.FromUsername ≠ "" then some configs.FromUsername
      else none := by
  rw [reqParams_Username]
  simp [hfailed]

/-- Witness for C6: `from_username = "bot"`, no error name, failed build: the
username stays `bot`. -/
theorem username_on_failed_build_witness :
    (CreatePayloadParam.reqParams
      ⟨"https://fleep.io/hook/abc", "bot", "", "hi", "", false, true⟩).Username
        = some "bot" := by
  have h := username_on_failed_build
    ⟨"https://fleep.io/hook/abc", "bot", "", "hi", "", false, true⟩ rfl
  rw [h]
  decide

/-! ### Message normalisation -/

/-- Induction along the scan of the replacement loop: the empty text, a text
that starts with backslash, `n`, and a text whose first character does not
start such an occurrence. -/
theorem scan_induction {P : List Char → Prop} (hnil : P [])
    (hmatch : ∀ t, P t → P ('\\' :: 'n' :: t))
    (hcopy : ∀ c t, ¬ (c = '\\' ∧ t.head? = some 'n') → P t → P (c :: t)) :
    ∀ l, P l := by
  have key : ∀ n, ∀ l : List Char, l.length ≤ n → P l := by
    intro n
    induction n with
    | zero =>
      intro l hl
      have : l = [] := List.length_eq_zero.mp (Nat.le_zero.mp hl)
      subst this
      exact hnil
    | succ n ih =>
      intro l hl
      match l, hl with
      | [], _ => exact hnil
      | c :: t, hl =>
        have ht : t.length ≤ n := by simpa using hl
        by_cases hc : c = '\\' ∧ t.head? = some 'n'
        · obtain ⟨hc1, hc2⟩ := hc
          match t, ht, hc2 with
          | d :: u, ht, hc2 =>
            have hd : d = 'n' := by simpa using hc2
            subst hc1
            subst hd
            exact hmatch u (ih u (by simp at ht; omega))
        · exact hcopy c t hc (ih t ht)
  intro l
  exact key l.length l le_rfl

theorem replaceFrom_match (t : List Char) :
    replaceFrom ['\\', 'n'] ['\n'] 0 ('\\' :: 'n' :: t)
      = '\n' :: replaceFrom ['\\', 'n'] ['\n'] 0 t := by
  simp [replaceFrom, List.isPrefixOf]

theorem replaceFrom_copy (c : Char) (t : List Char)
    (h : ¬ (c = '\\' ∧ t.head? = some 'n')) :
    replaceFrom ['\\', 'n'] ['\n'] 0 (c :: t)
      = c :: replaceFrom ['\\', 'n'] ['\n'] 0 t := by
  cases t with
  | nil => simp [replaceFrom, List.isPrefixOf]
  | cons d u =>
    have h2 : ¬ (c = '\\' ∧ d = 'n') := by simpa using h
    simp only [replaceFrom]
    rw [if_neg]
    simp only [List.isPrefixOf, Bool.and_true, Bool.and_eq_true, beq_iff_eq, Bool.not_eq_true]
    intro hh
    exact h2 ⟨hh.1.symm, hh.2.symm⟩

theorem replaceFrom_append_match (a b : List Char) :
    replaceFrom ['\\', 'n'] ['\n'] 0 (a ++ '\\' :: 'n' :: b)
      = replaceFrom ['\\', 'n'] ['\n'] 0 a
          ++ '\n' :: replaceFrom ['\\', 'n'] ['\n'] 0 b := by
  induction a using scan_induction with
  | hnil => simp [replaceFrom_match, replaceFrom]
  | hmatch t ih =>
    simp only [List.cons_append, replaceFrom_match, ih]
  | hcopy c t hc ih =>
    have hc2 : ¬ (c = '\\' ∧ (t ++ '\\' :: 'n' :: b).head? = some 'n') := by
      cases t with
      | nil => simp
      | cons d u => simpa using hc
    rw [List.cons_append, replaceFrom_copy c _ hc2, replaceFrom_copy c t hc, ih]
    rfl

theorem replaceFrom_of_no_occurrence (l : List Char) (h : ¬ ['\\', 'n'] <:+: l) :
    replaceFrom ['\\', 'n'] ['\n'] 0 l = l := by
  induction l using scan_induction with
  | hnil => simp [replaceFrom]
  | hmatch t _ =>
    exact absurd (List.prefix_append ['\\', 'n'] t).isInfix h
  | hcopy c t hc ih =>
    rw [replaceFrom_copy c t hc, ih]
    intro hinf
    exact h (List.infix_cons hinf)

theorem replaceFrom_head (l : List Char)
    (h : (replaceFrom ['\\', 'n'] ['\n'] 0 l).head? = some 'n') : l.head? = some 'n' := by
  induction l using scan_induction with
  | hnil => simp [replaceFrom] at h
  | hmatch t _ =>
    rw [replaceFrom_match] at h
    simp at h
  | hcopy c t hc _ =>
    rw [replaceFrom_copy c t hc] at h
    simpa using h

theorem replaceFrom_no_occurrence (l : List Char) :
    ¬ ['\\', 'n'] <:+: replaceFrom ['\\', 'n'] ['\n'] 0 l := by
  induction l using scan_induction with
  | hnil => simp [replaceFrom]
  | hmatch t ih =>
    rw [replaceFrom_match, List.infix_cons_iff]
    rintro (hp | hi)
    · simp at hp
    · exact ih hi
  | hcopy c t hc ih =>
    rw [replaceFrom_copy c t hc, List.infix_cons_iff]
    rintro (hp | hi)
    · rw [List.cons_prefix_cons] at hp
      apply hc
      refine ⟨hp.1.symm, replaceFrom_head t ?_⟩
      obtain ⟨r, hr⟩ := hp.2
      rw [← hr]
      rfl
    · exact ih hi

theorem ensureNewlineEscapeChar_data (s : String) :
    (ensureNewlineEscapeChar s).data = replaceFrom ['\\', 'n'] ['\n'] 0 s.data := by
  have h1 : ("\\" ++ "n" : String) ≠ "\n" := by decide
  have h2 : ("\\" ++ "n" : String) ≠ "" := by decide
  have h3 : ("\\" ++ "n" : String).data = ['\\', 'n'] := by decide
  simp only [ensureNewlineEscapeChar, stringsReplaceAll, if_neg h1, if_neg h2, h3]

/-- C7: the message normalisation replaces every occurrence of backslash, `n`
by one newline and changes nothing else. A text without the sequence is
returned as it is; a text split around an occurrence is normalised piece by
piece with a newline in place of the occurrence; the result never contains
the sequence; and on a successful build the message `line1`, backslash, `n`,
`line2` gives the payload message `line1`, newline, `line2`. -/
theorem ensureNewlineEscapeChar_replaces_all :
    (∀ s : String, ¬ hasBackslashN s → ensureNewlineEscapeChar s = s) ∧
    (∀ a b : String, ensureNewlineEscapeChar (a ++ "\\n" ++ b)
        = ensureNewlineEscapeChar a ++ "\n" ++ ensureNewlineEscapeChar b) ∧
    (∀ s : String, ¬ hasBackslashN (ensureNewlineEscapeChar s)) ∧
    (∀ configs : ConfigsModel, configs.IsBuildFailed = false →
        configs.Message = "line1\\nline2" →
        (CreatePayloadParam.reqParams configs).Text = "line1\nline2") := by
  refine ⟨?_, ?_, ?_, ?_⟩
  · intro s hs
    apply String.ext
    rw [ensureNewlineEscapeChar_data]
    exact replaceFrom_of_no_occurrence s.data hs
  · intro a b
    apply String.ext
    simp only [String.data_append, ensureNewlineEscapeChar_data]
    rw [List.append_assoc, List.append_assoc]
    exact replaceFrom_append_match a.data b.data
  · intro s
    unfold hasBackslashN
    rw [ensureNewlineEscapeChar_data]
    exact replaceFrom_no_occurrence s.data
  · intro configs hok hmsg
    rw [reqParams_Text, hok, hmsg]
    simp only [Bool.false_eq_true, false_and, if_false]
    decide

/-- Witness for C7: a text without the sequence is left as it is, and the
message `line1`, backslash, `n`, `line2` of a successful build becomes two
lines. -/
theorem ensureNewlineEscapeChar_replaces_all_witness :
    ¬ hasBackslashN "no escapes here" ∧
      ensureNewlineEscapeChar "no escapes here" = "no escapes here" ∧
      (CreatePayloadParam.reqParams
        ⟨"https://fleep.io/hook/abc", "", "", "line1\\nline2", "", false, false⟩).Text
          = "line1\nline2" :=
  ⟨by decide,
   ensureNewlineEscapeChar_replaces_all.1 "no escapes here" (by decide),
   ensureNewlineEscapeChar_replaces_all.2.2.2
    ⟨"https://fleep.io/hook/abc", "", "", "line1\\nline2", "", false, false⟩ rfl rfl⟩

/-! ### Message selection -/

/-- C8: on a failed build with a non-empty `message_on_error`, the payload
message is the normalised `message_on_error`, whatever `message` is, and the
builder returns the marshalled payload with that message; with
`message_on_error = "oops"` the payload message is `oops`. -/
theorem message_on_error_used (configs : ConfigsModel)
    (hfailed : configs.IsBuildFailed = true) (hmsg : configs.MessageOnError ≠ "") :
    (CreatePayloadParam.reqParams configs).Text
        = ensureNewlineEscapeChar configs.MessageOnError ∧
      CreatePayloadParam configs
        = jsonMarshal ⟨ensureNewlineEscapeChar configs.MessageOnError,
            (CreatePayloadParam.reqParams configs).Username⟩ ∧
      (configs.MessageOnError = "oops" →
        (CreatePayloadParam.reqParams configs).Text = "oops") := by
  have ht : (CreatePayloadParam.reqParams configs).Text
      = ensureNewlineEscapeChar configs.MessageOnError := by
    rw [reqParams_Text, if_pos ⟨hfailed, hmsg⟩]
  refine ⟨ht, ?_, ?_⟩
  · rw [CreatePayloadParam_eq, ← ht]
    rfl
  · intro hoops
    rw [ht, hoops]
    decide

/-- Witness for C8: a failed build with `message_on_error = "oops"` and some
other `message`. -/
theorem message_on_error_used_witness :
    (CreatePayloadParam.reqParams
      ⟨"https://fleep.io/hook/abc", "", "", "all good", "oops", false, true⟩).Text
        = "oops" :=
  (message_on_error_used
    ⟨"https://fleep.io/hook/abc", "", "", "all good", "oops", false, true⟩
    rfl (by decide)).2.2 rfl

/-- C9: on a failed build with an empty `message_on_error`, the payload message
is the normalised `message`, the builder returns the marshalled payload with
that message and a nil error; with `message = "hello"` the payload message is
`hello`. -/
theorem message_fallback_on_failed_build (configs : ConfigsModel)
    (hfailed : configs.IsBuildFailed = true) (hmsg : configs.MessageOnError = "") :
    (CreatePayloadParam.reqParams configs).Text
        = ensureNewlineEscapeChar configs.Message ∧
      CreatePayloadParam configs
        = (renderJsonObject
            (RequestParams.toJson ⟨ensureNewlineEscapeChar configs.Message,
              (CreatePayloadParam.reqParams configs).Username⟩), none) ∧
      (configs.Message = "hello" →
        (CreatePayloadParam.reqParams configs).Text = "hello") := by
  have ht : (CreatePayloadParam.reqParams configs).Text
      = ensureNewlineEscapeChar configs.Message := by
    rw [reqParams_Text, hfailed, hmsg]
    simp
  refine ⟨ht, ?_, ?_⟩
  · rw [CreatePayloadParam_eq, ← ht]
  · intro hhello
    rw [ht, hhello]
    decide

/-- Witness for C9: a failed build without `message_on_error` and with
`message = "hello"`. -/
theorem message_fallback_on_failed_build_witness :
    (CreatePayloadParam.reqParams
        ⟨"https://fleep.io/hook/abc", "", "", "hello", "", false, true⟩).Text = "hello" ∧
      (CreatePayloadParam
        ⟨"https://fleep.io/hook/abc", "", "", "hello", "", false, true⟩).2 = none :=
  ⟨(message_fallback_on_failed_build
      ⟨"https://fleep.io/hook/abc", "", "", "hello", "", false, true⟩ rfl rfl).2.2 rfl,
    by decide⟩

/-! ### Serialisation of an absent username -/

/-- C4 as stated fails: with no username resolved the JSON object still has the
member `user`, and the text sent carries it with the value `null`. -/
theorem user_key_present_without_username :
    (CreatePayloadParam.reqParams
        ⟨"https://fleep.io/hook/abc", "", "", "hi", "", false, false⟩).Username = none ∧
      "user" ∈ (CreatePayloadParam.reqParams
        ⟨"https://fleep.io/hook/abc", "", "", "hi", "", false, false⟩).toJson.map Prod.fst ∧
      (CreatePayloadParam
        ⟨"https://fleep.io/hook/abc", "", "", "hi", "", false, false⟩).1
          = "\x7b\"message\":\"hi\",\"user\":null\x7d" := by
  decide

/-- C4, amended: when no username is resolved (`from_username` is empty and, if
the build failed, `from_username_on_error` is empty too), the JSON object has
the two members `message` and `user`, the latter with the value `null` (not an
empty string), and the text produced ends with that member. -/
theorem user_null_without_username (configs : ConfigsModel)
    (hname : configs.FromUsername = "")
    (herr : configs.IsBuildFailed = true → configs.FromUsernameOnError = "") :
    (CreatePayloadParam.reqParams configs).toJson
        = [("message", .str (CreatePayloadParam.reqParams configs).Text),
           ("user", .null)] ∧
      (CreatePayloadParam configs).1
        = "\x7b\"message\":" ++ jsonString (CreatePayloadParam.reqParams configs).Text
            ++ ",\"user\":null\x7d" := by
  have hu : (CreatePayloadParam.reqParams configs).Username = none := by
    rw [reqParams_Username]
    by_cases hf : configs.IsBuildFailed = true
    · simp [herr hf, hname]
    · simp [hf, hname]
  have hj : (CreatePayloadParam.reqParams configs).toJson
      = [("message", .str (CreatePayloadParam.reqParams configs).Text),
         ("user", .null)] := by
    simp [RequestParams.toJson, RequestParams.jsonFields, jsonObjectOf, jsonValueOf, hu]
  refine ⟨hj, ?_⟩
  rw [CreatePayloadParam_eq, hj]
  have hk1 : jsonString "message" = "\"message\"" := by decide
  have hk2 : jsonString "user" = "\"user\"" := by decide
  simp only [renderJsonObject, List.map, String.intercalate, String.intercalate.go,
    renderJsonValue, hk1, hk2]
  apply String.ext
  simp [String.data_append]

/-- Witness for C4: a failed build with neither name set. -/
theorem user_null_without_username_witness :
    (CreatePayloadParam.reqParams
        ⟨"https://fleep.io/hook/abc", "", "", "hi", "", false, true⟩).toJson
      = [("message", .str (CreatePayloadParam.reqParams
            ⟨"https://fleep.io/hook/abc", "", "", "hi", "", false, true⟩).Text),
         ("user", .null)] :=
  (user_null_without_username
    ⟨"https://fleep.io/hook/abc", "", "", "hi", "", false, true⟩ rfl (fun _ => rfl)).1

/-! ### Configuration loader -/

/-- C10 as stated fails: in an environment where no variable is set, the
loader sets `is_build_failed` to true, not false. -/
theorem build_failed_when_status_unset :
    emptyEnv "STEPLIB_BUILD_STATUS" = none ∧
      (createConfigsModelFromEnvs emptyEnv).IsBuildFailed = true := by
  decide

/-- C10, amended: a missing variable gives the empty string for each of the
five string fields and false for `is_debug_mode`, while a missing
`STEPLIB_BUILD_STATUS` gives `is_build_failed = true`; so with no variable set
the five strings are empty, `is_debug_mode` is false and `is_build_failed` is
true. -/
theorem createConfigsModelFromEnvs_missing (env : Env) :
    (env "webhook_url" = none → (createConfigsModelFromEnvs env).WebhookURL = "") ∧
    (env "from_username" = none → (createConfigsModelFromEnvs env).FromUsername = "") ∧
    (env "from_username_on_error" = none →
      (createConfigsModelFromEnvs env).FromUsernameOnError = "") ∧
    (env "message" = none → (createConfigsModelFromEnvs env).Message = "") ∧
    (env "message_on_error" = none → (createConfigsModelFromEnvs env).MessageOnError = "") ∧
    (env "is_debug_mode" = none → (createConfigsModelFromEnvs env).IsDebugMode = false) ∧
    (env "STEPLIB_BUILD_STATUS" = none →
      (createConfigsModelFromEnvs env).IsBuildFailed = true) ∧
    ((∀ key, env key = none) →
      createConfigsModelFromEnvs env = ⟨"", "", "", "", "", false, true⟩) := by
  refine ⟨?_, ?_, ?_, ?_, ?_, ?_, ?_, ?_⟩
  · intro h
    simp [createConfigsModelFromEnvs, osGetenv, h]
  · intro h
    simp [createConfigsModelFromEnvs, osGetenv, h]
  · intro h
    simp [createConfigsModelFromEnvs, osGetenv, h]
  · intro h
    simp [createConfigsModelFromEnvs, osGetenv, h]
  · intro h
    simp [createConfigsModelFromEnvs, osGetenv, h]
  · intro h
    simp [createConfigsModelFromEnvs, osGetenv, h]
  · intro h
    simp [createConfigsModelFromEnvs, osGetenv, h]
  · intro h
    simp [createConfigsModelFromEnvs, osGetenv, h]

/-- Witness for C10: the environment with no variable set. -/
theorem createConfigsModelFromEnvs_missing_witness :
    createConfigsModelFromEnvs emptyEnv = ⟨"", "", "", "", "", false, true⟩ :=
  (createConfigsModelFromEnvs_missing emptyEnv).2.2.2.2.2.2.2 (fun _ => rfl)

end FleepMessage
